import Mathlib

/-!
Verification of the transaction-scoped context propagation mechanism
(PrismaService with AsyncLocalStorage, the join-or-create transaction
manager, the client resolver, and the withTransactionClient decorator)
against its natural-language specification.

The embedding translates the repository's code:
* the final, join-aware PrismaService.transaction and the TransactionStore
  record with a generated transaction id (src/decorator.ts, the sections
  on the transaction identifier and on reusing the parent transaction);
* the client getter in its several forms, including the documented
  fallback workaround that silently allocates a new client
  (src/unnamed/part_000 lines 450-471, src/prisma/transactional/readme.md
  lines 376-398);
* the withTransactionClient class decorator (src/decorator.ts lines 3-43).

AsyncLocalStorage is modelled by threading the scoped value as a parameter
through evaluation: running a callback inside prismaClientContext.run
evaluates it with the new scope, and the previous scope is restored
automatically for the continuation.  The native interactive transaction
of the underlying store (Prisma) is modelled by a counter supply of native
transaction numbers plus lists of opened, committed and rolled-back
transactions.  The random id source used by the manager
(Math.random().toString(36).substring(2, 9)) is modelled as an oracle
stream of strings indexed by a draw counter.
-/

namespace Share2

/-- Error payloads thrown by business callbacks.  The manager never inspects
them, so an abstract numeric code suffices. -/
abbrev Err := Nat

/-- Runtime identity of a database client handle.  internalClient is the one
default client owned by the service (this, this.prisma or
this._internalPrismaClient, depending on the variant); txClient n is the
transaction client handed out by the native interactive transaction number n;
freshClient k is the k-th ad hoc client allocated by the fallback workaround
via new PrismaClient(). -/
inductive Handle where
  | internalClient : Handle
  | txClient : Nat → Handle
  | freshClient : Nat → Handle
deriving DecidableEq, Repr

/-- The value kept in the AsyncLocalStorage while a transaction is open
(src/decorator.ts, interface TransactionStore): the transaction client plus
the short generated transaction id. -/
structure TransactionStore where
  txClient : Handle
  transactionId : String
deriving DecidableEq, Repr

/-- What prismaClientContext.getStore() returns for the current call chain. -/
abbrev Scope := Option TransactionStore

/-- Observable side effects on the underlying resource. -/
inductive Effect where
  | allocClient : Effect
  | connectClient : Effect
  | disconnectClient : Effect
deriving DecidableEq, Repr

/-- Lifecycle states of the default resource handle. -/
inductive LifecycleState where
  | uninit : LifecycleState
  | ready : LifecycleState
  | closed : LifecycleState
deriving DecidableEq, Repr

/-- Trace events recorded while evaluating business callbacks:
created id n marks the manager opening native transaction n with generated
id; joined id marks a nested manager call reusing the context with that id;
wrote h r marks a write of record r issued through the handle h returned by
the resolver. -/
inductive Event where
  | created : String → Nat → Event
  | joined : String → Event
  | wrote : Handle → Nat → Event
deriving DecidableEq, Repr

/-- State of the underlying store: the supply of native transaction numbers,
the index of the next draw from the random id oracle, and the native
transactions opened, committed and rolled back so far. -/
structure PrismaState where
  nextTx : Nat
  nextRand : Nat
  opened : List Nat
  committed : List Nat
  rolledBack : List Nat
deriving DecidableEq, Repr

/-- The TransactionStore the manager builds on the create path: the
transaction client received from the native primitive plus the freshly
drawn id. -/
def rootCtx (rng : Nat → String) (st : PrismaState) : TransactionStore :=
  { txClient := Handle.txClient st.nextTx, transactionId := rng st.nextRand }

/-- Effect of the native primitive opening an interactive transaction:
one native transaction number and one random draw are consumed, and the
new native transaction is recorded as opened. -/
def beginState (st : PrismaState) : PrismaState :=
  { st with nextRand := st.nextRand + 1, nextTx := st.nextTx + 1,
            opened := st.opened ++ [st.nextTx] }

/-- The native primitive committing transaction n. -/
def commitState (n : Nat) (st : PrismaState) : PrismaState :=
  { st with committed := st.committed ++ [n] }

/-- The native primitive rolling back transaction n. -/
def rollbackState (n : Nat) (st : PrismaState) : PrismaState :=
  { st with rolledBack := st.rolledBack ++ [n] }

/-- The client getter of the final composition form (src/decorator.ts, the
getter returning either the stored transaction client or the internal
client): if the AsyncLocalStorage holds a store, its transaction client is
returned, otherwise the service's own default client. -/
def PrismaService.client (scope : Scope) (internal : Handle) : Handle :=
  match scope with
  | some store => store.txClient
  | none => internal

/-- The client getter of the first form (readme.md lines 43-45), where the
storage holds the bare transaction client and the service itself is the
default client: prismaClientContext.getStore() or-else this. -/
def PrismaService.clientV1 (scope : Option Handle) (self : Handle) : Handle :=
  scope.getD self

/-- The client getter with the documented temporary workaround
(src/unnamed/part_000 lines 450-471): if a store is present return it;
otherwise, if this has lost its PrismaClient methods (selfFunctional is
false), silently construct and return a brand new client - an allocation
effect - and otherwise return this. -/
def PrismaService.clientWorkaround (scope : Option Handle) (selfFunctional : Bool)
    (self : Handle) (freshSupply : Nat) : Handle × List Effect :=
  match scope with
  | some store => (store, [])
  | none =>
      if selfFunctional = false then
        (Handle.freshClient freshSupply, [Effect.allocClient])
      else (self, [])

/-- The cached variant of the workaround getter (readme.md lines 376-398):
the fallback client is kept in _fallbackPrismaClient; on first use it is
allocated and $connect() is called on it. -/
def PrismaService.clientWorkaroundCached (scope : Option Handle) (selfFunctional : Bool)
    (self : Handle) (cache : Option Handle) (freshSupply : Nat) :
    Handle × Option Handle × List Effect :=
  match scope with
  | some store => (store, cache, [])
  | none =>
      if selfFunctional = false then
        match cache with
        | some c => (c, some c, [])
        | none => (Handle.freshClient freshSupply, some (Handle.freshClient freshSupply),
                   [Effect.allocClient, Effect.connectClient])
      else (self, cache, [])

/-- onModuleInit: await $connect() on the internal client, making the
default resource handle ready. -/
def PrismaService.onModuleInit (_s : LifecycleState) : LifecycleState × List Effect :=
  (LifecycleState.ready, [Effect.connectClient])

/-- onModuleDestroy: await $disconnect() on the internal client, closing the
default resource handle. -/
def PrismaService.onModuleDestroy (_s : LifecycleState) : LifecycleState × List Effect :=
  (LifecycleState.closed, [Effect.disconnectClient])

/-- Result of evaluating a callback: its outcome, the new state of the
underlying store, and the trace of events it produced. -/
abbrev Outcome := Except Err Nat × PrismaState × List Event

/-- A callback as the manager sees it: something that runs in a scope and a
store state and produces an outcome. -/
abbrev Callback := Scope → PrismaState → Outcome

/-- Syntax of business callbacks: return a value; throw an error; issue a
write of a record through the handle the resolver returns, then continue;
read the transaction id visible in scope (as getLogPrefix does), then
continue; or call the transaction manager on a nested body, then continue
with its value. -/
inductive Cb where
  | ret : Nat → Cb
  | fail : Err → Cb
  | write : Nat → Cb → Cb
  | getId : (Option String → Cb) → Cb
  | runTx : Cb → (Nat → Cb) → Cb

/-- Evaluation of business callbacks.  The runTx case is the embedding of the
join-aware PrismaService.transaction (src/decorator.ts, the section on
reusing the parent transaction): if a store is visible in scope the callback
runs directly in the same scope, with no native transaction and no new
store; otherwise a fresh id is drawn, the native primitive opens a
transaction, the body runs with the new store in scope, and the native
transaction commits when the body returns and rolls back when it throws,
with the error rethrown unchanged.  The write case issues a write through
the handle returned by the client getter. -/
def evalCb (rng : Nat → String) : Cb → Scope → PrismaState → Outcome
  | Cb.ret v, _, st => (Except.ok v, st, [])
  | Cb.fail e, _, st => (Except.error e, st, [])
  | Cb.write r k, scope, st =>
      let h := PrismaService.client scope Handle.internalClient
      let res := evalCb rng k scope st
      (res.1, res.2.1, Event.wrote h r :: res.2.2)
  | Cb.getId k, scope, st =>
      evalCb rng (k (scope.map (fun s => s.transactionId))) scope st
  | Cb.runTx body k, scope, st =>
      match scope with
      | some store =>
          match evalCb rng body (some store) st with
          | (Except.ok v, st1, ev) =>
              let res := evalCb rng (k v) (some store) st1
              (res.1, res.2.1, Event.joined store.transactionId :: (ev ++ res.2.2))
          | (Except.error e, st1, ev) =>
              (Except.error e, st1, Event.joined store.transactionId :: ev)
      | none =>
          match evalCb rng body (some (rootCtx rng st)) (beginState st) with
          | (Except.ok v, st2, ev) =>
              let res := evalCb rng (k v) none (commitState st.nextTx st2)
              (res.1, res.2.1, Event.created (rng st.nextRand) st.nextTx :: (ev ++ res.2.2))
          | (Except.error e, st2, ev) =>
              (Except.error e, rollbackState st.nextTx st2,
               Event.created (rng st.nextRand) st.nextTx :: ev)

/-- The join-aware transaction manager as a function on callbacks
(src/decorator.ts, the final PrismaService.transaction): read the current
store; if present, run the callback directly; if absent, draw an id, open a
native interactive transaction, run the callback with the new store in
scope, and commit or roll back according to the callback's outcome,
rethrowing its error unchanged. -/
def PrismaService.transaction (rng : Nat → String) (callback : Callback) :
    Scope → PrismaState → Outcome := fun scope st =>
  match scope with
  | some store =>
      let res := callback (some store) st
      (res.1, res.2.1, Event.joined store.transactionId :: res.2.2)
  | none =>
      match callback (some (rootCtx rng st)) (beginState st) with
      | (Except.ok v, st2, ev) =>
          (Except.ok v, commitState st.nextTx st2,
           Event.created (rng st.nextRand) st.nextTx :: ev)
      | (Except.error e, st2, ev) =>
          (Except.error e, rollbackState st.nextTx st2,
           Event.created (rng st.nextRand) st.nextTx :: ev)

/-- The interceptor (readme.md lines 128-164): a handler not marked
transactional is passed through; a transactional handler is wrapped in
PrismaService.transaction, with the inner try/catch and the outer catchError
both rethrowing the same error. -/
def PrismaTransactionInterceptor.intercept (rng : Nat → String) (isTransactional : Bool)
    (handler : Callback) (scope : Scope) (st : PrismaState) : Outcome :=
  if isTransactional = false then handler scope st
  else
    match PrismaService.transaction rng
        (fun sc s =>
          match handler sc s with
          | (Except.ok v, s1, ev) => (Except.ok v, s1, ev)
          | (Except.error e, s1, ev) => (Except.error e, s1, ev)) scope st with
    | (Except.ok v, s1, ev) => (Except.ok v, s1, ev)
    | (Except.error e, s1, ev) => (Except.error e, s1, ev)

/-- Pairs (id, n) of the created events in a trace. -/
def createdOf : List Event → List (String × Nat)
  | [] => []
  | Event.created i n :: ev => (i, n) :: createdOf ev
  | Event.joined _ :: ev => createdOf ev
  | Event.wrote _ _ :: ev => createdOf ev

/-- Ids of the joined events in a trace. -/
def joinedOf : List Event → List String
  | [] => []
  | Event.created _ _ :: ev => joinedOf ev
  | Event.joined i :: ev => i :: joinedOf ev
  | Event.wrote _ _ :: ev => joinedOf ev

/-- Handles of the wrote events in a trace. -/
def wroteHandles : List Event → List Handle
  | [] => []
  | Event.created _ _ :: ev => wroteHandles ev
  | Event.joined _ :: ev => wroteHandles ev
  | Event.wrote h _ :: ev => h :: wroteHandles ev

/-- All transaction ids a trace mentions: ids of created and of joined
events. -/
def obsIds (ev : List Event) : List String :=
  joinedOf ev ++ (createdOf ev).map Prod.fst

/-- All client handles a trace mentions: handles written through, plus the
native transaction clients of created events. -/
def obsHandles (ev : List Event) : List Handle :=
  wroteHandles ev ++ (createdOf ev).map (fun p => Handle.txClient p.2)

/-- Boolean test that every element of a list equals a. -/
def allEq {α : Type} [DecidableEq α] (l : List α) (a : α) : Bool :=
  l.all (fun x => decide (x = a))

/-- Boolean test that no element of the first list occurs in the second. -/
def disjointB {α : Type} [DecidableEq α] (l l2 : List α) : Bool :=
  l.all (fun x => l2.all (fun y => decide (x ≠ y)))

/-- The TransactionContext record as the specification's words describe it,
for comparison with the code's TransactionStore: a transactional handle, a
short identifier, and a nesting depth. -/
structure TransactionContextSpec where
  transactionalHandle : Handle
  transactionId : String
  depth : Nat
deriving DecidableEq, Repr

/-- The canonical field-preserving projection from the spec's record to the
code's store; it has nowhere to put the depth. -/
def storeOfSpec (c : TransactionContextSpec) : TransactionStore :=
  { txClient := c.transactionalHandle, transactionId := c.transactionId }

/-- Errors of the JavaScript runtime relevant to the decorator: the
SyntaxError thrown by the Function constructor on an invalid source. -/
inductive JsError where
  | syntaxError : JsError
deriving DecidableEq, Repr

/-- JavaScript values as far as the decorator inspects them: numbers,
strings, null, objects that carry a $transaction function (transaction-like
clients), and other objects. -/
inductive JsValue where
  | num : Nat → JsValue
  | str : String → JsValue
  | nullV : JsValue
  | txLike : Nat → JsValue
  | obj : Nat → JsValue
deriving DecidableEq, Repr

/-- The decorator's test on one argument (src/decorator.ts line 16):
typeof a is object, a is not null, and typeof a.$transaction is function. -/
def isTxLike (a : JsValue) : Bool :=
  match a with
  | JsValue.txLike _ => true
  | _ => false

/-- The backwards search of src/decorator.ts lines 14-20: the index of the
last transaction-like argument, or -1 when there is none. -/
def findTxArgIndex (args : List JsValue) : Int :=
  match args.reverse.findIdx? isTxLike with
  | some j => (args.length : Int) - 1 - (j : Int)
  | none => -1

/-- String.prototype.slice on a character list, with the ECMAScript clamping
rules for negative and out-of-range positions. -/
def jsSliceList (cs : List Char) (start stop : Int) : List Char :=
  let len : Int := cs.length
  let s := if start < 0 then max (len + start) 0 else min start len
  let e := if stop < 0 then max (len + stop) 0 else min stop len
  if s < e then (cs.drop s.toNat).take (e - s).toNat else []

/-- String.prototype.indexOf for a single character: first index or -1. -/
def jsIndexOfChar (cs : List Char) (c : Char) : Int :=
  match cs.findIdx? (fun d => d = c) with
  | some i => (i : Int)
  | none => -1

/-- String.prototype.lastIndexOf for a single character: last index or -1. -/
def jsLastIndexOfChar (cs : List Char) (c : Char) : Int :=
  match cs.reverse.findIdx? (fun d => d = c) with
  | some j => (cs.length : Int) - 1 - (j : Int)
  | none => -1

/-- The replace of src/decorator.ts line 26: the regular expression matches
function at the start, then any characters other than a line terminator,
non-greedily, up to the first opening parenthesis, and the match is replaced
by function followed by an opening parenthesis. -/
def stripFunctionHeader (s : String) : String :=
  let cs := s.data
  if cs.take 8 = ("function").data then
    let rest := cs.drop 8
    match rest.findIdx? (fun c => c = '(' || c = '\n' || c = '\r') with
    | some i =>
        match rest.get? i with
        | some '(' => String.mk (("function(").data ++ rest.drop (i + 1))
        | _ => s
    | none => s
  else s

/-- The slice of src/decorator.ts line 27: everything strictly between the
first opening brace and the last closing brace of the function source. -/
def extractMethodBody (functionString : String) : String :=
  let cs := functionString.data
  String.mk (jsSliceList cs (jsIndexOfChar cs '\x7b' + 1) (jsLastIndexOfChar cs '\x7d'))

/-- Characters that may occur in a JavaScript identifier name (ASCII). -/
def isIdentChar (c : Char) : Bool :=
  c.isAlphanum || c = '_' || c = '$'

/-- Blank characters inside a line. -/
def isSpaceChar (c : Char) : Bool :=
  c = ' ' || c = '\t'

/-- Checks that a run of identifier characters and dots is a well-formed
dotted chain: no empty segment before, between or after the dots.  The
second argument records whether the position right before the current list
expects a fresh segment. -/
def dotSegOk : List Char → Bool → Bool
  | [], afterDot => !afterDot
  | c :: rest, afterDot =>
      if c = '.' then (if afterDot then false else dotSegOk rest true)
      else dotSegOk rest false

/-- A conservative syntactic test of the first statement of a JavaScript
function body.  It returns false only on sources that no ECMAScript parser
accepts; whenever it cannot decide, it answers true.  Concretely: when the
body starts with a const, let or var declaration whose initializer is a
plain dotted chain of identifiers, the chain must be well formed, and the
token after the initializer must not be an identifier other than the binary
operators in and instanceof, because two adjacent expression tokens on one
line are a SyntaxError; a const declaration must carry an initializer.
Everything else is accepted without judgement. -/
def firstStmtCheck (cs : List Char) : Bool :=
  let cs1 := cs.dropWhile (fun c => isSpaceChar c || c = '\n' || c = '\r')
  let kw := cs1.takeWhile isIdentChar
  if kw = ("const").data || kw = ("let").data || kw = ("var").data then
    let cs2 := (cs1.dropWhile isIdentChar).dropWhile isSpaceChar
    let name := cs2.takeWhile isIdentChar
    if name.isEmpty then false
    else
      let cs3 := (cs2.dropWhile isIdentChar).dropWhile isSpaceChar
      match cs3 with
      | '=' :: cs4 =>
          let cs5 := cs4.dropWhile isSpaceChar
          let expr := cs5.takeWhile (fun c => isIdentChar c || c = '.')
          if expr.isEmpty then true
          else if (expr.headD ' ').isDigit then true
          else if !dotSegOk expr true then false
          else
            let cs6 := (cs5.dropWhile (fun c => isIdentChar c || c = '.')).dropWhile isSpaceChar
            match cs6 with
            | [] => true
            | c :: _ =>
                if isIdentChar c then
                  let w := cs6.takeWhile isIdentChar
                  w = ("in").data || w = ("instanceof").data
                else true
      | _ => !(kw = ("const").data : Bool)
  else true

/-- Validity test a function body must pass for the Function constructor to
accept it; see firstStmtCheck for the conservative contract. -/
def jsFunctionBodyOk (body : String) : Bool :=
  firstStmtCheck body.data

/-- Model of the ECMAScript Function constructor, an external collaborator:
new Function(p1, ..., pn, body) parses its pieces as a function and throws a
SyntaxError when the assembled source is not valid JavaScript.  The
parameter names the decorator passes all have the form argN and are always
valid, so only the body is checked.  The resulting function object is never
invoked by the decorator, so Unit stands in for it. -/
def Function.construct (_params : List String) (body : String) : Except JsError Unit :=
  if jsFunctionBodyOk body then Except.ok () else Except.error JsError.syntaxError

/-- A method of a decorated class: its source text, as
originalMethod.toString() returns it, and its behaviour on a receiver and an
argument list. -/
structure Method where
  src : String
  sem : JsValue → List JsValue → JsValue

/-- The wrapper withTransactionClient installs over every method
(src/decorator.ts lines 12-36): find the last transaction-like argument;
build a new source that prepends a tx declaration - referring to
prismaClient when a transaction argument was found and to this.prisma
otherwise - to the original method body; hand that source to the Function
constructor; and finally call the original method on the original receiver
and arguments, ignoring the constructed function.  The prismaClient chosen
on line 23 is referenced only by name inside the generated source, so its
value does not influence the outcome. -/
def wrappedMethod (original : Method) (self : JsValue) (args : List JsValue) :
    Except JsError JsValue :=
  let txArgIndex := findTxArgIndex args
  let functionString := stripFunctionHeader original.src
  let methodBody := extractMethodBody functionString
  let txDeclaration :=
    ("const tx = ") ++ (if txArgIndex > -1 then ("prismaClient") else ("this.prisma")) ++ (" as any;")
  let newMethodBody := txDeclaration ++ ("\n") ++ methodBody
  match Function.construct ((List.range args.length).map (fun i => ("arg") ++ toString i))
      newMethodBody with
  | Except.error e => Except.error e
  | Except.ok _ => Except.ok (original.sem self args)

/-- A concrete oracle for the random id stream: the decimal digits of the
draw index. -/
def rng0 : Nat → String := fun n => toString n

/-- A concrete initial store state. -/
def st0 : PrismaState :=
  { nextTx := 0, nextRand := 0, opened := [], committed := [], rolledBack := [] }

/-- A concrete store state as a second root call chain might find it. -/
def stB0 : PrismaState :=
  { nextTx := 1, nextRand := 1, opened := [0], committed := [0], rolledBack := [] }

/-- A concrete transaction store visible to a joining call. -/
def store0 : TransactionStore :=
  { txClient := Handle.txClient 99, transactionId := "w" }

/-- A concrete decorated method: an async repository method with a typical
body, whose behaviour returns the number 42. -/
def demoMethod : Method :=
  { src := "async createUser(data) \x7b return this.prisma.user.create(data); \x7d",
    sem := fun _ _ => JsValue.num 42 }

/-- Splitting createdOf over an appended trace. -/
theorem createdOf_append (l l2 : List Event) :
    createdOf (l ++ l2) = createdOf l ++ createdOf l2 := by
  induction l with
  | nil => simp [createdOf]
  | cons e t ih => cases e <;> simp [createdOf, ih]

/-- Splitting joinedOf over an appended trace. -/
theorem joinedOf_append (l l2 : List Event) :
    joinedOf (l ++ l2) = joinedOf l ++ joinedOf l2 := by
  induction l with
  | nil => simp [joinedOf]
  | cons e t ih => cases e <;> simp [joinedOf, ih]

/-- Splitting wroteHandles over an appended trace. -/
theorem wroteHandles_append (l l2 : List Event) :
    wroteHandles (l ++ l2) = wroteHandles l ++ wroteHandles l2 := by
  induction l with
  | nil => simp [wroteHandles]
  | cons e t ih => cases e <;> simp [wroteHandles, ih]

/-- allEq over an appended list. -/
theorem allEq_append {α : Type} [DecidableEq α] (l l2 : List α) (a : α) :
    allEq (l ++ l2) a = (allEq l a && allEq l2 a) := by
  simp [allEq, List.all_append]

/-- allEq as a universal statement. -/
theorem allEq_iff {α : Type} [DecidableEq α] {l : List α} {a : α} :
    allEq l a = true ↔ ∀ x ∈ l, x = a := by
  simp [allEq]

/-- Two lists each consisting of a single repeated value are disjoint when
the values differ. -/
theorem disjointB_of_allEq {α : Type} [DecidableEq α] {l l2 : List α} {a b : α}
    (h : allEq l a = true) (h2 : allEq l2 b = true) (hab : a ≠ b) :
    disjointB l l2 = true := by
  rw [allEq_iff] at h h2
  simp only [disjointB, List.all_eq_true, decide_eq_true_eq]
  intro x hx y hy
  rw [h x hx, h2 y hy]
  exact hab

/-- Core property of evaluation under a visible transaction context: the
state of the underlying store is left completely untouched (no native
transaction is opened, committed or rolled back and no supply is consumed),
no context is ever created, every joined event carries the id of the
visible context, and every write goes through the visible context's
transaction client. -/
theorem evalCb_scoped (rng : Nat → String) (cb : Cb) (store : TransactionStore) :
    ∀ st : PrismaState,
      (evalCb rng cb (some store) st).2.1 = st
      ∧ createdOf (evalCb rng cb (some store) st).2.2 = []
      ∧ allEq (joinedOf (evalCb rng cb (some store) st).2.2) store.transactionId = true
      ∧ allEq (wroteHandles (evalCb rng cb (some store) st).2.2) store.txClient = true := by
  induction cb with
  | ret v => intro st; simp [evalCb, createdOf, joinedOf, wroteHandles, allEq]
  | fail e => intro st; simp [evalCb, createdOf, joinedOf, wroteHandles, allEq]
  | write r k ih =>
      intro st
      have h := ih st
      rcases hk : evalCb rng k (some store) st with ⟨res, st1, ev⟩
      rw [hk] at h
      simp only [evalCb, hk]
      simp_all [createdOf, joinedOf, wroteHandles, allEq, PrismaService.client]
      exact ⟨h.2.2.1, h.2.2.2⟩
  | getId k ih =>
      intro st
      simp only [evalCb, Option.map]
      exact ih store.transactionId st
  | runTx body k ih1 ih2 =>
      intro st
      rcases hb : evalCb rng body (some store) st with ⟨rb, st1, ev1⟩
      have h1 := ih1 st
      rw [hb] at h1
      cases rb with
      | ok v =>
          rcases hk : evalCb rng (k v) (some store) st1 with ⟨r2, st2, ev2⟩
          have h2 := ih2 v st1
          rw [hk] at h2
          simp only [evalCb, hb, hk]
          refine ⟨by simp_all, ?_, ?_, ?_⟩
          · simp [createdOf, createdOf_append, h1.2.1, h2.2.1]
          · simp [joinedOf, allEq, joinedOf_append, List.all_append]
            constructor
            · have := h1.2.2.1; simp [allEq] at this; exact this
            · have := h2.2.2.1; simp [allEq] at this; exact this
          · simp [wroteHandles, allEq, wroteHandles_append, List.all_append]
            constructor
            · have := h1.2.2.2; simp [allEq] at this; exact this
            · have := h2.2.2.2; simp [allEq] at this; exact this
      | error e =>
          simp only [evalCb, hb]
          refine ⟨h1.1, ?_, ?_, ?_⟩
          · simp [createdOf, h1.2.1]
          · simp [joinedOf, allEq]
            have := h1.2.2.1; simp [allEq] at this; exact this
          · simp [wroteHandles]
            exact h1.2.2.2

/-- Unfolding a root manager call whose continuation just returns: the
native primitive begins a transaction, the body runs with the freshly built
store in scope, and the result is committed or rolled back. -/
theorem evalCb_root_run (rng : Nat → String) (body : Cb) (st : PrismaState) :
    evalCb rng (Cb.runTx body Cb.ret) none st =
      match evalCb rng body (some (rootCtx rng st)) (beginState st) with
      | (Except.ok v, st2, ev) =>
          (Except.ok v, commitState st.nextTx st2,
           Event.created (rng st.nextRand) st.nextTx :: ev)
      | (Except.error e, st2, ev) =>
          (Except.error e, rollbackState st.nextTx st2,
           Event.created (rng st.nextRand) st.nextTx :: ev) := by
  rcases hb : evalCb rng body (some (rootCtx rng st)) (beginState st) with ⟨rb, st2, ev⟩
  cases rb <;> simp [evalCb, hb]

/-- The ids and handles a root run's trace mentions are exactly the root's
own generated id and the root's own native transaction client. -/
theorem evalCb_root_obs (rng : Nat → String) (body : Cb) (st : PrismaState) :
    allEq (obsIds (evalCb rng (Cb.runTx body Cb.ret) none st).2.2) (rng st.nextRand) = true
    ∧ allEq (obsHandles (evalCb rng (Cb.runTx body Cb.ret) none st).2.2)
        (Handle.txClient st.nextTx) = true := by
  rw [evalCb_root_run]
  rcases hb : evalCb rng body (some (rootCtx rng st)) (beginState st) with ⟨rb, st2, ev⟩
  have hs := evalCb_scoped rng body (rootCtx rng st) (beginState st)
  rw [hb] at hs
  have hj : allEq (joinedOf ev) (rng st.nextRand) = true := by
    have := hs.2.2.1; simpa [rootCtx] using this
  have hw : allEq (wroteHandles ev) (Handle.txClient st.nextTx) = true := by
    have := hs.2.2.2; simpa [rootCtx] using this
  have hc : createdOf ev = [] := hs.2.1
  cases rb <;>
    simp_all [obsIds, obsHandles, createdOf, joinedOf, wroteHandles, allEq_append, allEq] <;>
    exact ⟨hj, hw⟩

/-- The first statement of every body the decorator generates contains the
TypeScript-only cast as any, which no ECMAScript parser accepts, whatever
the extracted method body is: the this.prisma variant. -/
theorem genBodyInvalid_this (mb : String) :
    jsFunctionBodyOk (("const tx = this.prisma as any;\n") ++ mb) = false := rfl

/-- The first statement of every body the decorator generates contains the
TypeScript-only cast as any, which no ECMAScript parser accepts, whatever
the extracted method body is: the prismaClient variant. -/
theorem genBodyInvalid_prismaClient (mb : String) :
    jsFunctionBodyOk (("const tx = prismaClient as any;\n") ++ mb) = false := rfl

/-- C1: a manager run invoked while a transaction context is already visible
invokes the callback directly - the state of the underlying store is left
untouched and no new context is created, and the callback's outcome is
returned as is, both for the evaluator and for the transaction function
applied to an arbitrary callback - while a root run opens exactly one native
transaction for the whole nested call graph, creates exactly one context
carrying the generated id and that native transaction's client, and every
nested joining invocation observes the root's transaction id.  Proved
against the join-aware PrismaService.transaction of src/decorator.ts (the
final section on reusing the parent transaction); the interim variant at
readme.md lines 49-57 predates the join check and is superseded there. -/
theorem run_join_or_create_single_native (rng : Nat → String) (body : Cb)
    (st : PrismaState) (store : TransactionStore) (st2 : PrismaState) (f : Callback) :
    (evalCb rng (Cb.runTx body Cb.ret) none st).2.1.opened = st.opened ++ [st.nextTx]
    ∧ createdOf (evalCb rng (Cb.runTx body Cb.ret) none st).2.2
        = [(rng st.nextRand, st.nextTx)]
    ∧ allEq (joinedOf (evalCb rng (Cb.runTx body Cb.ret) none st).2.2)
        (rng st.nextRand) = true
    ∧ (evalCb rng (Cb.runTx body Cb.ret) (some store) st2).2.1 = st2
    ∧ createdOf (evalCb rng (Cb.runTx body Cb.ret) (some store) st2).2.2 = []
    ∧ (evalCb rng (Cb.runTx body Cb.ret) (some store) st2).1
        = (evalCb rng body (some store) st2).1
    ∧ (PrismaService.transaction rng f (some store) st2).1 = (f (some store) st2).1
    ∧ (PrismaService.transaction rng f (some store) st2).2.1 = (f (some store) st2).2.1 := by
  have hroot := evalCb_root_run rng body st
  rcases hb : evalCb rng body (some (rootCtx rng st)) (beginState st) with ⟨rb, stb, evb⟩
  rw [hb] at hroot
  have hs := evalCb_scoped rng body (rootCtx rng st) (beginState st)
  rw [hb] at hs
  rcases hj : evalCb rng body (some store) st2 with ⟨rj, stj, evj⟩
  have hsj := evalCb_scoped rng body store st2
  rw [hj] at hsj
  refine ⟨?_, ?_, ?_, ?_, ?_, ?_, ?_, ?_⟩
  · rw [hroot]
    cases rb <;>
      simp_all [commitState, rollbackState, beginState]
  · rw [hroot]
    cases rb with
    | ok v =>
        simp [createdOf, hs.2.1]
    | error e =>
        simp [createdOf, hs.2.1]
  · rw [hroot]
    have := hs.2.2.1
    cases rb <;> simp_all [joinedOf, allEq, rootCtx] <;> exact this
  · cases rj with
    | ok v =>
        simp [evalCb, hj]
        exact hsj.1
    | error e =>
        simp [evalCb, hj]
        exact hsj.1
  · cases rj with
    | ok v => simp [evalCb, hj, createdOf, createdOf_append, hsj.2.1]
    | error e => simp [evalCb, hj, createdOf, hsj.2.1]
  · cases rj with
    | ok v => simp [evalCb, hj]
    | error e => simp [evalCb, hj]
  · simp [PrismaService.transaction]
  · simp [PrismaService.transaction]

/-- C2: when the callback of a manager run throws, at any nesting depth, the
very same error is re-raised to the caller of run - by the evaluator, by
the transaction function, and through the interceptor's rethrowing catches -
and on the root path the error propagates out of the native primitive's
callback, so the native transaction is recorded as rolled back and never as
committed; on the join path the underlying store is left untouched. -/
theorem transaction_error_propagation (rng : Nat → String) (body : Cb)
    (st : PrismaState) (e : Err) (store : TransactionStore) (st2 : PrismaState)
    (hroot : (evalCb rng body (some (rootCtx rng st)) (beginState st)).1 = Except.error e)
    (hjoin : (evalCb rng body (some store) st2).1 = Except.error e) :
    (evalCb rng (Cb.runTx body Cb.ret) none st).1 = Except.error e
    ∧ (evalCb rng (Cb.runTx body Cb.ret) none st).2.1.rolledBack
        = st.rolledBack ++ [st.nextTx]
    ∧ (evalCb rng (Cb.runTx body Cb.ret) none st).2.1.committed = st.committed
    ∧ (PrismaTransactionInterceptor.intercept rng true
        (fun sc s => evalCb rng body sc s) none st).1 = Except.error e
    ∧ (evalCb rng (Cb.runTx body Cb.ret) (some store) st2).1 = Except.error e
    ∧ (evalCb rng (Cb.runTx body Cb.ret) (some store) st2).2.1 = st2 := by
  have hrootrun := evalCb_root_run rng body st
  rcases hb : evalCb rng body (some (rootCtx rng st)) (beginState st) with ⟨rb, stb, evb⟩
  rw [hb] at hrootrun
  rw [hb] at hroot
  have hs := evalCb_scoped rng body (rootCtx rng st) (beginState st)
  rw [hb] at hs
  have hrb : rb = Except.error e := hroot
  subst hrb
  rcases hj : evalCb rng body (some store) st2 with ⟨rj, stj, evj⟩
  rw [hj] at hjoin
  have hsj := evalCb_scoped rng body store st2
  rw [hj] at hsj
  have hrj : rj = Except.error e := hjoin
  subst hrj
  refine ⟨?_, ?_, ?_, ?_, ?_, ?_⟩
  · rw [hrootrun]
  · rw [hrootrun]
    have hstb : stb = beginState st := hs.1
    simp [rollbackState, hstb, beginState]
  · rw [hrootrun]
    have hstb : stb = beginState st := hs.1
    simp [rollbackState, hstb, beginState]
  · simp [PrismaTransactionInterceptor.intercept, PrismaService.transaction, hb]
  · simp [evalCb, hj]
  · simp [evalCb, hj]
    exact hsj.1

/-- Witness for C2 at a nesting depth of two: the innermost callback throws
error 7, the nested run joins and re-raises it, the root run rolls back
native transaction 0 and re-raises the same error 7, and the interceptor
passes it through unchanged. -/
theorem transaction_error_propagation_witness :
    (evalCb rng0 (Cb.runTx (Cb.runTx (Cb.fail 7) Cb.ret) Cb.ret) none st0).1
        = Except.error 7
    ∧ (evalCb rng0 (Cb.runTx (Cb.runTx (Cb.fail 7) Cb.ret) Cb.ret) none st0).2.1.rolledBack
        = st0.rolledBack ++ [st0.nextTx]
    ∧ (evalCb rng0 (Cb.runTx (Cb.runTx (Cb.fail 7) Cb.ret) Cb.ret) none st0).2.1.committed
        = st0.committed
    ∧ (PrismaTransactionInterceptor.intercept rng0 true
        (fun sc s => evalCb rng0 (Cb.runTx (Cb.fail 7) Cb.ret) sc s) none st0).1
        = Except.error 7
    ∧ (evalCb rng0 (Cb.runTx (Cb.runTx (Cb.fail 7) Cb.ret) Cb.ret) (some store0) st0).1
        = Except.error 7
    ∧ (evalCb rng0 (Cb.runTx (Cb.runTx (Cb.fail 7) Cb.ret) Cb.ret) (some store0) st0).2.1
        = st0 :=
  transaction_error_propagation rng0 (Cb.runTx (Cb.fail 7) Cb.ret) st0 7 store0 st0 rfl rfl

/-- C3: against the specification's demand that a resolver read with no
context in scope and an unready default handle fail loudly, the repository's
workaround getter instead silently allocates and returns a brand-new,
unmanaged client, in both its uncached form (part_000 lines 450-471) and its
cached, self-connecting form (readme.md lines 376-398); the returned handle
is not the default resource handle. -/
theorem client_workaround_silent_fallback :
    PrismaService.clientWorkaround none false Handle.internalClient 0
      = (Handle.freshClient 0, [Effect.allocClient])
    ∧ (PrismaService.clientWorkaroundCached none false Handle.internalClient none 5).1
      = Handle.freshClient 5
    ∧ Handle.freshClient 0 ≠ Handle.internalClient := by
  refine ⟨rfl, rfl, by decide⟩

/-- C4: the resolver returns the transaction client of the visible context
and the default client otherwise, in both the or-else form of readme.md
lines 43-45 and the final composition form; accordingly, inside a context
every write the evaluator issues goes through that context's transaction
client, and outside any context a write goes through the internal default
client. -/
theorem client_resolution (rng : Nat → String) (store : TransactionStore)
    (i self h : Handle) (cb : Cb) (st st2 : PrismaState) (r : Nat) :
    PrismaService.client (some store) i = store.txClient
    ∧ PrismaService.client none i = i
    ∧ PrismaService.clientV1 (some h) self = h
    ∧ PrismaService.clientV1 none self = self
    ∧ allEq (wroteHandles (evalCb rng cb (some store) st).2.2) store.txClient = true
    ∧ (evalCb rng (Cb.write r (Cb.ret 0)) none st2).2.2
        = [Event.wrote Handle.internalClient r] := by
  refine ⟨rfl, rfl, rfl, rfl, (evalCb_scoped rng cb store st).2.2.2, ?_⟩
  simp [evalCb, PrismaService.client]

/-- C5: two root runs on separate call chains never observe each other's
context - every id and every client handle in one root's trace is that
root's own, and the two traces mention no common id and no common handle -
given that the two native transaction numbers differ (the native store
opens distinct transactions) and that the two draws from the random id
oracle differ (the collision-free operating assumption of the
Math.random-based id generator). -/
theorem roots_isolated (rng : Nat → String) (bodyA bodyB : Cb) (stA stB : PrismaState)
    (hid : rng stA.nextRand ≠ rng stB.nextRand) (hn : stA.nextTx ≠ stB.nextTx) :
    allEq (obsIds (evalCb rng (Cb.runTx bodyA Cb.ret) none stA).2.2)
        (rng stA.nextRand) = true
    ∧ allEq (obsIds (evalCb rng (Cb.runTx bodyB Cb.ret) none stB).2.2)
        (rng stB.nextRand) = true
    ∧ disjointB (obsIds (evalCb rng (Cb.runTx bodyA Cb.ret) none stA).2.2)
        (obsIds (evalCb rng (Cb.runTx bodyB Cb.ret) none stB).2.2) = true
    ∧ allEq (obsHandles (evalCb rng (Cb.runTx bodyA Cb.ret) none stA).2.2)
        (Handle.txClient stA.nextTx) = true
    ∧ allEq (obsHandles (evalCb rng (Cb.runTx bodyB Cb.ret) none stB).2.2)
        (Handle.txClient stB.nextTx) = true
    ∧ disjointB (obsHandles (evalCb rng (Cb.runTx bodyA Cb.ret) none stA).2.2)
        (obsHandles (evalCb rng (Cb.runTx bodyB Cb.ret) none stB).2.2) = true := by
  have hA := evalCb_root_obs rng bodyA stA
  have hB := evalCb_root_obs rng bodyB stB
  refine ⟨hA.1, hB.1, disjointB_of_allEq hA.1 hB.1 hid, hA.2, hB.2, ?_⟩
  refine disjointB_of_allEq hA.2 hB.2 ?_
  intro hcontra
  exact hn (by simpa using hcontra)

/-- Witness for C5: two concrete root runs, one write each, from supply
states 0 and 1; the draws differ, the native numbers differ, and all six
isolation facts hold on the two concrete traces. -/
theorem roots_isolated_witness :
    rng0 st0.nextRand ≠ rng0 stB0.nextRand
    ∧ st0.nextTx ≠ stB0.nextTx
    ∧ (allEq (obsIds (evalCb rng0 (Cb.runTx (Cb.write 3 (Cb.ret 0)) Cb.ret) none st0).2.2)
          (rng0 st0.nextRand) = true
        ∧ allEq (obsIds (evalCb rng0 (Cb.runTx (Cb.write 4 (Cb.ret 0)) Cb.ret) none stB0).2.2)
            (rng0 stB0.nextRand) = true
        ∧ disjointB (obsIds (evalCb rng0 (Cb.runTx (Cb.write 3 (Cb.ret 0)) Cb.ret) none st0).2.2)
            (obsIds (evalCb rng0 (Cb.runTx (Cb.write 4 (Cb.ret 0)) Cb.ret) none stB0).2.2) = true
        ∧ allEq (obsHandles (evalCb rng0 (Cb.runTx (Cb.write 3 (Cb.ret 0)) Cb.ret) none st0).2.2)
            (Handle.txClient st0.nextTx) = true
        ∧ allEq (obsHandles (evalCb rng0 (Cb.runTx (Cb.write 4 (Cb.ret 0)) Cb.ret) none stB0).2.2)
            (Handle.txClient stB0.nextTx) = true
        ∧ disjointB (obsHandles (evalCb rng0 (Cb.runTx (Cb.write 3 (Cb.ret 0)) Cb.ret) none st0).2.2)
            (obsHandles (evalCb rng0 (Cb.runTx (Cb.write 4 (Cb.ret 0)) Cb.ret) none stB0).2.2) = true) :=
  ⟨by decide, by decide,
   roots_isolated rng0 (Cb.write 3 (Cb.ret 0)) (Cb.write 4 (Cb.ret 0)) st0 stB0
     (by decide) (by decide)⟩

/-- C6: a resolver read through the repository's workaround getter does
implicitly trigger resource effects: the cached variant allocates a new
client and calls connect on it, and the uncached variant allocates a new
client on every broken read, whereas the lifecycle transitions themselves
are driven by the explicit onModuleInit and onModuleDestroy calls and the
final composition getter performs no effect at all. -/
theorem resolver_read_triggers_connect :
    (PrismaService.clientWorkaroundCached none false Handle.internalClient none 0).2.2
      = [Effect.allocClient, Effect.connectClient]
    ∧ (PrismaService.clientWorkaround none false Handle.internalClient 0).2
      = [Effect.allocClient]
    ∧ PrismaService.onModuleInit LifecycleState.uninit
      = (LifecycleState.ready, [Effect.connectClient])
    ∧ PrismaService.onModuleDestroy LifecycleState.ready
      = (LifecycleState.closed, [Effect.disconnectClient])
    ∧ PrismaService.client none Handle.internalClient = Handle.internalClient :=
  ⟨rfl, rfl, rfl, rfl, rfl⟩

/-- C7: outside any transaction, the repository's workaround getter is not a
stable identity - with the inherited client non-functional, two successive
reads return two distinct freshly constructed clients - although it does
return the same default handle on both reads when the inherited client is
functional. -/
theorem client_workaround_unstable_identity :
    (PrismaService.clientWorkaround none false Handle.internalClient 0).1
      = Handle.freshClient 0
    ∧ (PrismaService.clientWorkaround none false Handle.internalClient 1).1
      = Handle.freshClient 1
    ∧ Handle.freshClient 0 ≠ Handle.freshClient 1
    ∧ (PrismaService.clientWorkaround none true Handle.internalClient 0).1
      = Handle.internalClient := by
  refine ⟨rfl, rfl, by decide, rfl⟩

/-- C8, counterexample: the claim that the stored context carries a depth
field fails on the code - the code's TransactionStore holds exactly a
transaction client and an id, so two spec-style contexts that differ only in
depth cannot be told apart once stored: the canonical field-preserving
projection identifies them, and no field-preserving map into the stored
record can separate them. -/
theorem context_depth_not_stored :
    ((⟨Handle.internalClient, "t", 1⟩ : TransactionContextSpec)
        ≠ ⟨Handle.internalClient, "t", 2⟩)
    ∧ storeOfSpec ⟨Handle.internalClient, "t", 1⟩
        = storeOfSpec ⟨Handle.internalClient, "t", 2⟩
    ∧ ¬ ∃ f : TransactionContextSpec → TransactionStore,
        (∀ c, (f c).txClient = c.transactionalHandle
            ∧ (f c).transactionId = c.transactionId)
        ∧ f ⟨Handle.internalClient, "t", 1⟩ ≠ f ⟨Handle.internalClient, "t", 2⟩ := by
  refine ⟨by decide, rfl, ?_⟩
  rintro ⟨f, hf, hne⟩
  apply hne
  have h1 := hf ⟨Handle.internalClient, "t", 1⟩
  have h2 := hf ⟨Handle.internalClient, "t", 2⟩
  rcases hfa : f ⟨Handle.internalClient, "t", 1⟩ with ⟨a1, b1⟩
  rcases hfb : f ⟨Handle.internalClient, "t", 2⟩ with ⟨a2, b2⟩
  rw [hfa] at h1
  rw [hfb] at h2
  simp_all

/-- C8, amended: the context stored in scope is a record holding exactly a
transactional handle and a short transaction identifier - it is determined
by those two components, with no depth field - the manager constructs
exactly one such record per root run, carrying the generated id and the
native transaction's client, and nested evaluation under a visible context
neither touches the underlying store nor creates or replaces a context:
every observation reads the original record's own components. -/
theorem context_record_amended (rng : Nat → String) (cb body : Cb)
    (store : TransactionStore) (st st2 : PrismaState) (s t : TransactionStore) :
    (s = t ↔ (s.txClient = t.txClient ∧ s.transactionId = t.transactionId))
    ∧ createdOf (evalCb rng (Cb.runTx body Cb.ret) none st2).2.2
        = [(rng st2.nextRand, st2.nextTx)]
    ∧ (evalCb rng cb (some store) st).2.1 = st
    ∧ createdOf (evalCb rng cb (some store) st).2.2 = []
    ∧ allEq (joinedOf (evalCb rng cb (some store) st).2.2) store.transactionId = true
    ∧ allEq (wroteHandles (evalCb rng cb (some store) st).2.2) store.txClient = true := by
  have hs := evalCb_scoped rng cb store st
  refine ⟨?_, ?_, hs.1, hs.2.1, hs.2.2.1, hs.2.2.2⟩
  · constructor
    · rintro rfl; exact ⟨rfl, rfl⟩
    · rintro ⟨hh, hi⟩
      cases s
      cases t
      simp_all
  · have hroot := evalCb_root_run rng body st2
    rcases hb : evalCb rng body (some (rootCtx rng st2)) (beginState st2) with ⟨rb, stb, evb⟩
    rw [hb] at hroot
    have hsb := evalCb_scoped rng body (rootCtx rng st2) (beginState st2)
    rw [hb] at hsb
    rw [hroot]
    cases rb <;> simp [createdOf, hsb.2.1]

/-- Witness for C8's amended statement: at concrete inputs, the two-field
characterization rebuilds a concrete store equality, and the concrete root
run creates exactly one context pair. -/
theorem context_record_amended_witness :
    store0 = store0
    ∧ createdOf (evalCb rng0 (Cb.runTx (Cb.write 3 (Cb.ret 0)) Cb.ret) none st0).2.2
        = [(rng0 st0.nextRand, st0.nextTx)] :=
  ⟨(context_record_amended rng0 (Cb.ret 0) (Cb.write 3 (Cb.ret 0))
      store0 st0 st0 store0 store0).1.mpr ⟨rfl, rfl⟩,
   (context_record_amended rng0 (Cb.ret 0) (Cb.write 3 (Cb.ret 0))
      store0 st0 st0 store0 store0).2.1⟩

/-- C9, counterexample: the decorated method is not an identity wrapper - on
a concrete receiver and argument list the wrapped call throws the Function
constructor's SyntaxError, while the original method returns the number 42. -/
theorem decorated_call_not_identity :
    wrappedMethod demoMethod (JsValue.obj 1) [JsValue.num 7]
      = Except.error JsError.syntaxError
    ∧ demoMethod.sem (JsValue.obj 1) [JsValue.num 7] = JsValue.num 42
    ∧ Except.error JsError.syntaxError
        ≠ (Except.ok (JsValue.num 42) : Except JsError JsValue) := by
  refine ⟨rfl, rfl, ?_⟩
  intro h
  exact Except.noConfusion h

/-- C9, amended: for every decorated method, receiver and argument list, the
wrapper throws the SyntaxError raised while the Function constructor parses
the generated source - whose first statement embeds the TypeScript-only
cast as any - before the final delegation to the original method can run;
the string-rewritten function is indeed never invoked. -/
theorem decorated_always_syntax_error (m : Method) (self : JsValue)
    (args : List JsValue) :
    wrappedMethod m self args = Except.error JsError.syntaxError := by
  by_cases hi : findTxArgIndex args > -1
  · simp [wrappedMethod, hi, Function.construct, genBodyInvalid_prismaClient]
  · simp [wrappedMethod, hi, Function.construct, genBodyInvalid_this]

end Share2
